import Mathlib

/-!
Verification of the stock-analysis scraping pipeline
(`stockAnalyser.ipynb`): a shallow embedding of the scraping
functions (`fetch_page`, `clean_company_name`, `get_company_name`,
`get_current_price`, `get_latest_news`, `analyze_stock`, and the
batch loop building `todos` and `df_prices`), together with theorems
settling the stated properties.

Modelling conventions:
- Parsed HTML pages are modelled by the two query results the code
  uses: the text of the first `h1` of class `yf-xxbei9` and the text
  of the first `span` with `data-testid="qsp-price"`, each `Option`
  (absent element = `none`).
- The network is a `Web` value mapping each ticker to the outcome of
  the two GET requests (quote page, RSS feed); transport failures and
  raised exceptions are `Except` errors.
- Python `str.strip` and the regex class `\s` are modelled over the
  ASCII whitespace characters.
- The regex substitution `re.sub(r"\s*\(.*?\)", "", name)` is modelled
  by a left-to-right scan (`reSubParens`) that mirrors the leftmost,
  non-overlapping match semantics of `re.sub` for this pattern: at
  each position a match consumes a maximal whitespace run followed by
  a literal open parenthesis, then lazily up to the first close
  parenthesis, failing if a newline intervenes (the dot does not
  match newline).
-/

/-- ASCII whitespace, as matched by the Python regex class `\s`
and stripped by `str.strip`. -/
def pySpace (c : Char) : Bool :=
  c = ' ' || c = '\t' || c = '\n' || c = '\r' || c = '\x0b' || c = '\x0c'

/-- Model of Python `str.lstrip` on character lists. -/
def pyLstrip (l : List Char) : List Char := l.dropWhile pySpace

/-- Model of Python `str.rstrip` on character lists. -/
def pyRstrip (l : List Char) : List Char := (l.reverse.dropWhile pySpace).reverse

/-- Model of Python `str.strip` on character lists. -/
def pyStrip (l : List Char) : List Char := pyRstrip (pyLstrip l)

/-- Model of Python `str.strip` on strings. -/
def pyStripStr (s : String) : String := (pyStrip s.toList).asString

/-- Whether a character is not a close parenthesis; the lazy `.*?` of
the pattern consumes exactly a prefix of such characters. -/
def notClose (c : Char) : Bool := c ≠ ')'

/-- After the `\s*` of the pattern `\s*\(.*?\)` has consumed the
whitespace run: require a literal open parenthesis, then lazily up to
the first close parenthesis (the lazy dot cannot cross a newline).
Returns the remainder after the match. -/
def matchAfterParen : List Char → Option (List Char)
  | [] => none
  | c :: rest =>
    if c = '(' then
      if '\n' ∈ rest.takeWhile notClose then none
      else (rest.dropWhile notClose).tail?
    else none

/-- Attempt to match the regex `\s*\(.*?\)` anchored at the head of the
list: consume a maximal run of whitespace, then the rest of the
pattern.  Returns the remainder after the match. -/
def tryMatch (cs : List Char) : Option (List Char) :=
  matchAfterParen (cs.dropWhile pySpace)

/-- Fuelled left-to-right scan performing `re.sub(r"\s*\(.*?\)", "", ·)`:
at each position, if a match starts there it is deleted and the scan
resumes after it; otherwise the character is kept.  The fuel is only a
termination device; `reSubParens` supplies fuel equal to the length. -/
def reSubAux : Nat → List Char → List Char
  | 0, cs => cs
  | _ + 1, [] => []
  | fuel + 1, c :: cs =>
    match tryMatch (c :: cs) with
    | some rest => reSubAux fuel rest
    | none => c :: reSubAux fuel cs

/-- Model of `re.sub(r"\s*\(.*?\)", "", cs)`. -/
def reSubParens (cs : List Char) : List Char := reSubAux cs.length cs

/-- `clean_company_name`: remove parenthesized parts via the regex
substitution, then strip surrounding whitespace. -/
def clean_company_name (name : String) : String :=
  (pyStrip (reSubParens name.toList)).asString

/-- Parsed quote page, reduced to the two queries the extractors make:
the first `h1` of class `yf-xxbei9` and the first `span` with
`data-testid="qsp-price"`; `none` when the element is absent. -/
structure Soup where
  h1_yf_xxbei9 : Option String
  qsp_price : Option String
deriving DecidableEq

/-- `get_company_name`: text of the name heading, stripped, then
cleaned; a fixed sentinel string when the heading is absent. -/
def get_company_name (soup : Soup) : String :=
  match soup.h1_yf_xxbei9 with
  | some txt => clean_company_name (pyStripStr txt)
  | none => "Nome não encontrado"

/-- `get_current_price`: text of the price span, stripped; `none`
(Python `None`) when the element is absent. -/
def get_current_price (soup : Soup) : Option String :=
  (soup.qsp_price).map pyStripStr

/-- Errors raised by the pipeline: a transport-level failure of
`requests.get`, the `HTTPError` raised by `raise_for_status`, and the
`AttributeError` raised when a feed item lacks its `title` or
`description` child. -/
inductive ScrapeError where
  | transport
  | httpStatus (code : Nat)
  | attribute
deriving DecidableEq

/-- One `item` element of the RSS feed document, reduced to the two
child text nodes the code reads; `none` models an absent child. -/
structure FeedItem where
  title : Option String
  description : Option String
deriving DecidableEq

/-- The HTTP response of the news-feed GET: its status code and the
`item` elements of the parsed body, in document order. -/
structure FeedResponse where
  status : Nat
  items : List FeedItem
deriving DecidableEq

/-- `Response.raise_for_status`: raises `HTTPError` exactly when the
status code is in 400..599. -/
def raise_for_status (r : FeedResponse) : Except ScrapeError Unit :=
  if 400 ≤ r.status ∧ r.status < 600 then .error (.httpStatus r.status) else .ok ()

/-- The body of the `for it in items` loop: read `it.title.text` and
`it.description.text`, stripped; a missing child raises
`AttributeError`. -/
def extract_item (it : FeedItem) : Except ScrapeError (String × String) :=
  match it.title, it.description with
  | some t, some d => .ok (pyStripStr t, pyStripStr d)
  | _, _ => .error .attribute

/-- The accumulation loop of `get_latest_news`, building the rows of
the resulting frame in item order; the first bad item aborts. -/
def collect_news : List FeedItem → Except ScrapeError (List (String × String))
  | [] => .ok []
  | it :: rest => do
    let pair ← extract_item it
    let pairs ← collect_news rest
    .ok (pair :: pairs)

/-- `get_latest_news` after the GET returned response `r`:
`raise_for_status`, then take the first `n` items and extract each. -/
def get_latest_news_from (r : FeedResponse) (n : Nat) :
    Except ScrapeError (List (String × String)) := do
  raise_for_status r
  collect_news (r.items.take n)

/-- The network, mapping each ticker to the outcome of the quote-page
GET (parsed by `fetch_page`) and of the news-feed GET. -/
structure Web where
  quotePage : String → Except ScrapeError Soup
  newsFeed : String → Except ScrapeError FeedResponse

/-- `get_latest_news`: GET the RSS feed for the ticker, then parse and
extract up to `n` (title, summary) rows. -/
def get_latest_news (w : Web) (ticker : String) (n : Nat) :
    Except ScrapeError (List (String × String)) := do
  let r ← w.newsFeed ticker
  get_latest_news_from r n

/-- The record returned by `analyze_stock`: exactly the four keys
`ticker`, `nome`, `preco_atual`, `noticias`. -/
structure Snapshot where
  ticker : String
  nome : String
  preco_atual : Option String
  noticias : List (String × String)
deriving DecidableEq

/-- `analyze_stock`: fetch the quote page, extract name and price from
it, fetch the latest news, and return the four-field record. -/
def analyze_stock (w : Web) (ticker : String) (n_news : Nat) :
    Except ScrapeError Snapshot := do
  let soup ← w.quotePage ticker
  let news ← get_latest_news w ticker n_news
  pure { ticker := ticker
         nome := get_company_name soup
         preco_atual := get_current_price soup
         noticias := news }

/-- The batch list comprehension
`todos = [analyze_stock(t, n_news) for t in tickers]`: strictly
sequential in list order, aborted by the first exception. -/
def runBatch (w : Web) : List String → Nat → Except ScrapeError (List Snapshot)
  | [], _ => .ok []
  | t :: ts, n => do
    let s ← analyze_stock w t n
    let rest ← runBatch w ts n
    .ok (s :: rest)

/-- The `df_prices` frame built from `todos`: one (ticker, nome,
preco_atual) row per snapshot; not produced when the batch raises. -/
def df_prices (w : Web) (tickers : List String) (n : Nat) :
    Except ScrapeError (List (String × String × Option String)) :=
  (runBatch w tickers n).map (List.map fun r => (r.ticker, r.nome, r.preco_atual))

/-- The module-level `HEADERS` dict. -/
def HEADERS : List (String × String) :=
  [("User-Agent", "Mozilla/5.0 (Windows NT 10.0; Win64; x64)")]

/-- An outgoing HTTP GET request: URL and header dict. -/
structure HttpRequest where
  url : String
  headers : List (String × String)
deriving DecidableEq

/-- The request issued by `fetch_page`: the quote-page URL and the
LOCAL `headers` dict defined inside `fetch_page`. -/
def fetch_page_request (ticker : String) : HttpRequest :=
  { url := "https://finance.yahoo.com/quote/" ++ ticker ++ "/"
    headers := [("User-Agent", "Mozilla/5.0")] }

/-- The request issued by `get_latest_news`: the RSS URL and the
module-level `HEADERS`. -/
def news_request (ticker : String) : HttpRequest :=
  { url := "https://feeds.finance.yahoo.com/rss/2.0/headline?s=" ++ ticker
             ++ "&region=US&lang=en-US"
    headers := HEADERS }

/-- The User-Agent value a request carries. -/
def userAgent (r : HttpRequest) : Option String :=
  (r.headers.find? (fun p => p.1 = "User-Agent")).map Prod.snd

/-- Canned quote page for the AAPL end-to-end fixture. -/
def aaplSoup : Soup :=
  { h1_yf_xxbei9 := some "Apple Inc. (AAPL)", qsp_price := some "195.27" }

/-- Canned feed items for the AAPL end-to-end fixture. -/
def aaplItems : List FeedItem :=
  [ { title := some "News 1", description := some "Summary 1" },
    { title := some "News 2", description := some "Summary 2" },
    { title := some "News 3", description := some "Summary 3" },
    { title := some "News 4", description := some "Summary 4" },
    { title := some "News 5", description := some "Summary 5" } ]

/-- The (title, summary) rows the AAPL fixture feed yields. -/
def aaplNewsPairs : List (String × String) :=
  [("News 1", "Summary 1"), ("News 2", "Summary 2"), ("News 3", "Summary 3"),
   ("News 4", "Summary 4"), ("News 5", "Summary 5")]

/-- Canned network for the AAPL end-to-end fixture. -/
def aaplWeb : Web :=
  { quotePage := fun t => if t = "AAPL" then .ok aaplSoup else .error .transport
    newsFeed := fun t =>
      if t = "AAPL" then .ok { status := 200, items := aaplItems }
      else .error .transport }

/-- Canned network in which the ticker BADTICKER suffers a transport
failure on its quote-page GET, all other tickers behave as the AAPL
fixture. -/
def badWeb : Web :=
  { quotePage := fun t =>
      if t = "BADTICKER" then .error .transport else .ok aaplSoup
    newsFeed := fun t =>
      if t = "BADTICKER" then .error .transport
      else .ok { status := 200, items := aaplItems } }

/-- Canned feed response with HTTP status 500. -/
def feed500 : FeedResponse := { status := 500, items := aaplItems }

/-- Canned network whose news-feed GET returns HTTP 500. -/
def web500 : Web :=
  { quotePage := fun _ => .ok aaplSoup
    newsFeed := fun _ => .ok feed500 }

/-- Canned feed items in which the single entry lacks its description
child. -/
def malformedItems : List FeedItem :=
  [{ title := some "T", description := none }]

/-- Canned network whose feed contains a malformed entry. -/
def malformedWeb : Web :=
  { quotePage := fun _ => .ok aaplSoup
    newsFeed := fun _ => .ok { status := 200, items := malformedItems } }

/-- Build a string out of alternating parenthesis-free segments and
parenthesized groups: `assemble [(s₁, g₁), …] t` is
`s₁ ++ "(" ++ g₁ ++ ")" ++ … ++ t`. -/
def assemble : List (List Char × List Char) → List Char → List Char
  | [], t => t
  | (s, g) :: ps, t => s ++ '(' :: (g ++ ')' :: assemble ps t)

/-- The (title, summary) row a well-formed feed item yields: both
child texts stripped of surrounding whitespace. -/
def stripPair (it : FeedItem) : String × String :=
  (pyStripStr (it.title.getD ""), pyStripStr (it.description.getD ""))

example : clean_company_name "Apple Inc. (AAPL)" = "Apple Inc." := by decide
example : clean_company_name "Alpha (A) Beta (B)" = "Alpha Beta" := by decide
example : clean_company_name "A ((B))" = "A)" := by decide
example : clean_company_name "A (B\nC)" = "A (B\nC)" := by decide

example : analyze_stock aaplWeb "AAPL" 5 =
    .ok { ticker := "AAPL", nome := "Apple Inc.", preco_atual := some "195.27"
          noticias := aaplNewsPairs } := rfl

example : runBatch badWeb ["AAPL", "BADTICKER"] 3 = .error .transport := rfl

theorem tryMatch_nil : tryMatch [] = none := rfl

/-- A leading whitespace character is consumed by the `\s*` of the
pattern, so a match attempt sees past it. -/
theorem tryMatch_cons_space {x : Char} (hx : pySpace x) (cs : List Char) :
    tryMatch (x :: cs) = tryMatch cs := by
  simp [tryMatch, List.dropWhile_cons, hx]

/-- If the first non-whitespace character ahead is not an open
parenthesis, no match starts here. -/
theorem tryMatch_none_of_head {cs : List Char} {c : Char} {r : List Char}
    (hdw : cs.dropWhile pySpace = c :: r) (hc : c ≠ '(') : tryMatch cs = none := by
  simp [tryMatch, hdw, matchAfterParen, hc]

/-- If everything ahead is whitespace, no match starts here. -/
theorem tryMatch_none_of_all_space {cs : List Char}
    (hdw : cs.dropWhile pySpace = []) : tryMatch cs = none := by
  simp [tryMatch, hdw, matchAfterParen]

/-- A list without any open parenthesis admits no match at any
position. -/
theorem tryMatch_none_of_no_paren {cs : List Char}
    (h : ∀ x ∈ cs, x ≠ '(') : tryMatch cs = none := by
  rcases hdw : cs.dropWhile pySpace with _ | ⟨c, r⟩
  · exact tryMatch_none_of_all_space hdw
  · refine tryMatch_none_of_head hdw (h c ?_)
    have hsub : List.Sublist (c :: r) cs := by
      rw [← hdw]; exact List.dropWhile_sublist pySpace
    exact hsub.subset (List.mem_cons_self c r)

/-- Whitespace followed by an open parenthesis, a close-free and
newline-free group, and a close parenthesis is matched, leaving the
remainder after the close parenthesis. -/
theorem tryMatch_group {w g t : List Char} (hw : ∀ x ∈ w, pySpace x)
    (hg : ∀ x ∈ g, x ≠ ')') (hn : '\n' ∉ g) :
    tryMatch (w ++ '(' :: (g ++ ')' :: t)) = some t := by
  have hps : ¬ pySpace '(' = true := by decide
  have hdw : (w ++ '(' :: (g ++ ')' :: t)).dropWhile pySpace
      = '(' :: (g ++ ')' :: t) := by
    rw [List.dropWhile_append_of_pos hw, List.dropWhile_cons_of_neg hps]
  have hgb : ∀ x ∈ g, notClose x = true := by
    intro x hx; simpa [notClose] using hg x hx
  have hcl : ¬ notClose ')' = true := by decide
  have htk : (g ++ ')' :: t).takeWhile notClose = g := by
    rw [List.takeWhile_append_of_pos hgb, List.takeWhile_cons_of_neg hcl, List.append_nil]
  have hdk : (g ++ ')' :: t).dropWhile notClose = ')' :: t := by
    rw [List.dropWhile_append_of_pos hgb, List.dropWhile_cons_of_neg hcl]
  simp [tryMatch, hdw, matchAfterParen, htk, hdk, hn]

/-- A successful parenthesis match consumes at least the two
parentheses themselves. -/
theorem matchAfterParen_some_length {l rest : List Char}
    (h : matchAfterParen l = some rest) : rest.length + 2 ≤ l.length := by
  rcases l with _ | ⟨d, r1⟩
  · simp [matchAfterParen] at h
  · simp only [matchAfterParen] at h
    by_cases hd : d = '('
    · rw [if_pos hd] at h
      by_cases hnl : '\n' ∈ r1.takeWhile notClose
      · rw [if_pos hnl] at h; cases h
      · rw [if_neg hnl] at h
        rcases hd2 : r1.dropWhile notClose with _ | ⟨e, r2⟩
        · rw [hd2] at h; cases h
        · rw [hd2] at h
          simp only [List.tail?_cons, Option.some.injEq] at h
          have h2 : r2.length + 1 ≤ r1.length := by
            have hs := (List.dropWhile_sublist (l := r1) notClose).length_le
            rw [hd2] at hs; simpa using hs
          rw [← h]
          simp only [List.length_cons]
          omega
    · rw [if_neg hd] at h; cases h

/-- A successful match consumes at least the two parentheses, so the
remainder is shorter than the tail of the scanned list. -/
theorem tryMatch_some_length {c : Char} {cs rest : List Char}
    (h : tryMatch (c :: cs) = some rest) : rest.length ≤ cs.length := by
  have h1 := matchAfterParen_some_length h
  have h2 : ((c :: cs).dropWhile pySpace).length ≤ cs.length + 1 := by
    simpa using (List.dropWhile_sublist (l := c :: cs) pySpace).length_le
  omega

/-- The scan result does not depend on the fuel, as long as the fuel
covers the length of the list. -/
theorem reSubAux_fuel_irrel :
    ∀ (f1 : Nat) (cs : List Char) (f2 : Nat), cs.length ≤ f1 → cs.length ≤ f2 →
      reSubAux f1 cs = reSubAux f2 cs := by
  intro f1
  induction f1 with
  | zero =>
    intro cs f2 h1 _
    have : cs = [] := List.length_eq_zero.mp (Nat.le_zero.mp h1)
    subst this
    cases f2 <;> rfl
  | succ g1 ih =>
    intro cs f2 h1 h2
    rcases cs with _ | ⟨c, cs⟩
    · cases f2 <;> rfl
    · rcases f2 with _ | g2
      · exact absurd h2 (by simp)
      · have hc : cs.length ≤ g1 := by simpa using h1
        have hc2 : cs.length ≤ g2 := by simpa using h2
        show reSubAux (g1 + 1) (c :: cs) = reSubAux (g2 + 1) (c :: cs)
        unfold reSubAux
        rcases hm : tryMatch (c :: cs) with _ | rest
        · show c :: reSubAux g1 cs = c :: reSubAux g2 cs
          rw [ih cs g2 hc hc2]
        · have hr : rest.length ≤ cs.length := tryMatch_some_length hm
          show reSubAux g1 rest = reSubAux g2 rest
          exact ih rest g2 (le_trans hr hc) (le_trans hr hc2)

/-- Scan step when no match starts at the head: the character is kept
and the scan moves on. -/
theorem reSubParens_cons_none {c : Char} {cs : List Char}
    (h : tryMatch (c :: cs) = none) :
    reSubParens (c :: cs) = c :: reSubParens cs := by
  show reSubAux (cs.length + 1) (c :: cs) = c :: reSubParens cs
  unfold reSubAux
  rw [h]
  rfl

/-- Scan step when a match starts at the head: the match is deleted
and the scan resumes after it. -/
theorem reSubParens_cons_some {cs rest : List Char}
    (h : tryMatch cs = some rest) :
    reSubParens cs = reSubParens rest := by
  rcases cs with _ | ⟨c, cs⟩
  · rw [tryMatch_nil] at h; cases h
  · show reSubAux (cs.length + 1) (c :: cs) = reSubParens rest
    unfold reSubAux
    rw [h]
    show reSubAux cs.length rest = reSubAux rest.length rest
    exact reSubAux_fuel_irrel cs.length rest rest.length (tryMatch_some_length h) le_rfl

/-- A non-whitespace, non-parenthesis character blocks any match from
starting inside the paren-free run before it. -/
theorem no_match_scan :
    ∀ (l : List Char) (c : Char) (t : List Char), (∀ x ∈ l, x ≠ '(') →
      ¬ pySpace c → c ≠ '(' → tryMatch (l ++ c :: t) = none := by
  intro l
  induction l with
  | nil =>
    intro c t _ hcs hc
    exact tryMatch_none_of_head (List.dropWhile_cons_of_neg hcs) hc
  | cons x l ih =>
    intro c t hl hcs hc
    by_cases hx : pySpace x
    · rw [List.cons_append, tryMatch_cons_space hx]
      exact ih c t (fun y hy => hl y (List.mem_cons_of_mem x hy)) hcs hc
    · refine tryMatch_none_of_head (r := l ++ c :: t) ?_ (hl x (List.mem_cons_self x l))
      rw [List.cons_append]
      exact List.dropWhile_cons_of_neg hx

/-- The scan copies a paren-free run ended by a non-whitespace
character verbatim. -/
theorem reSub_emit :
    ∀ (a : List Char) (c : Char) (t : List Char), (∀ x ∈ a, x ≠ '(') →
      ¬ pySpace c → c ≠ '(' →
      reSubParens (a ++ c :: t) = a ++ c :: reSubParens t := by
  intro a
  induction a with
  | nil =>
    intro c t _ hcs hc
    rw [List.nil_append, List.nil_append]
    exact reSubParens_cons_none (no_match_scan [] c t (by simp) hcs hc)
  | cons x a ih =>
    intro c t ha hcs hc
    have hm : tryMatch (x :: (a ++ c :: t)) = none := by
      rw [← List.cons_append]
      exact no_match_scan (x :: a) c t ha hcs hc
    rw [List.cons_append, reSubParens_cons_none hm,
      ih c t (fun y hy => ha y (List.mem_cons_of_mem x hy)) hcs hc, List.cons_append]

/-- The scan deletes a whitespace run followed by a simple
parenthesized group. -/
theorem reSub_group {w g t : List Char} (hw : ∀ x ∈ w, pySpace x)
    (hg : ∀ x ∈ g, x ≠ ')') (hn : '\n' ∉ g) :
    reSubParens (w ++ '(' :: (g ++ ')' :: t)) = reSubParens t :=
  reSubParens_cons_some (tryMatch_group hw hg hn)

/-- A list without open parentheses is left unchanged by the
substitution. -/
theorem reSub_no_paren :
    ∀ {t : List Char}, (∀ x ∈ t, x ≠ '(') → reSubParens t = t := by
  intro t
  induction t with
  | nil => intro _; rfl
  | cons x t ih =>
    intro ht
    rw [reSubParens_cons_none (tryMatch_none_of_no_paren ht),
      ih (fun y hy => ht y (List.mem_cons_of_mem x hy))]

/-- Splitting off the trailing whitespace: every list is its
`pyRstrip` followed by a whitespace run. -/
theorem pyRstrip_append_spaces (l : List Char) :
    l = pyRstrip l ++ (l.reverse.takeWhile pySpace).reverse := by
  unfold pyRstrip
  rw [← List.reverse_append, List.takeWhile_append_dropWhile, List.reverse_reverse]

theorem mem_rstrip_spaces {l : List Char} {x : Char}
    (hx : x ∈ (l.reverse.takeWhile pySpace).reverse) : pySpace x :=
  List.mem_takeWhile_imp (List.mem_reverse.mp hx)

theorem pyRstrip_subset {l : List Char} {x : Char} (hx : x ∈ pyRstrip l) : x ∈ l := by
  unfold pyRstrip at hx
  exact List.mem_reverse.mp ((List.dropWhile_sublist pySpace).subset (List.mem_reverse.mp hx))

/-- `pyRstrip` is empty or ends in a non-whitespace character. -/
theorem pyRstrip_last (l : List Char) :
    pyRstrip l = [] ∨ ∃ a c, pyRstrip l = a ++ [c] ∧ ¬ pySpace c := by
  unfold pyRstrip
  rcases hdw : l.reverse.dropWhile pySpace with _ | ⟨c, r⟩
  · left; rfl
  · right
    refine ⟨r.reverse, c, by simp, ?_⟩
    have h0 := List.head?_dropWhile_not pySpace l.reverse
    rw [hdw] at h0
    simpa using h0

/-- The scan turns a paren-free segment followed by a simple
parenthesized group into the right-stripped segment followed by the
scan of the remainder. -/
theorem reSub_segment {s g t : List Char} (hs : ∀ x ∈ s, x ≠ '(')
    (hg : ∀ x ∈ g, x ≠ ')') (hn : '\n' ∉ g) :
    reSubParens (s ++ '(' :: (g ++ ')' :: t)) = pyRstrip s ++ reSubParens t := by
  have hsplit := pyRstrip_append_spaces s
  have hwsp : ∀ x ∈ (s.reverse.takeWhile pySpace).reverse, pySpace x :=
    fun x hx => mem_rstrip_spaces hx
  rcases pyRstrip_last s with hnil | ⟨a, c, hac, hc⟩
  · rw [hnil] at hsplit ⊢
    rw [List.nil_append] at hsplit
    rw [List.nil_append]
    calc reSubParens (s ++ '(' :: (g ++ ')' :: t))
        = reSubParens ((s.reverse.takeWhile pySpace).reverse ++ '(' :: (g ++ ')' :: t)) := by
          rw [← hsplit]
      _ = reSubParens t := reSub_group hwsp hg hn
  · have hmem : ∀ x ∈ a ++ [c], x ≠ '(' := by
      intro x hx
      exact hs x (pyRstrip_subset (hac ▸ hx))
    have hcne : c ≠ '(' := hmem c (by simp)
    have hane : ∀ x ∈ a, x ≠ '(' := fun x hx => hmem x (List.mem_append_left _ hx)
    calc reSubParens (s ++ '(' :: (g ++ ')' :: t))
        = reSubParens (a ++ c :: ((s.reverse.takeWhile pySpace).reverse
            ++ '(' :: (g ++ ')' :: t))) := by
          conv_lhs => rw [hsplit]
          rw [hac]
          simp [List.append_assoc]
      _ = a ++ c :: reSubParens ((s.reverse.takeWhile pySpace).reverse
            ++ '(' :: (g ++ ')' :: t)) := reSub_emit a c _ hane hc hcne
      _ = a ++ c :: reSubParens t := by rw [reSub_group hwsp hg hn]
      _ = pyRstrip s ++ reSubParens t := by rw [hac]; simp

/-- The scan of an assembled alternation of paren-free segments and
simple parenthesized groups deletes every group together with the
whitespace just before it. -/
theorem reSub_assemble :
    ∀ (ps : List (List Char × List Char)) (t : List Char),
      (∀ p ∈ ps, (∀ x ∈ p.1, x ≠ '(') ∧ (∀ x ∈ p.2, x ≠ ')') ∧ '\n' ∉ p.2) →
      (∀ x ∈ t, x ≠ '(') →
      reSubParens (assemble ps t) = (ps.map fun p => pyRstrip p.1).flatten ++ t := by
  intro ps
  induction ps with
  | nil =>
    intro t _ ht
    rw [List.map_nil]
    exact reSub_no_paren ht
  | cons p ps ih =>
    intro t hps ht
    rcases p with ⟨s, g⟩
    obtain ⟨hs, hg, hn⟩ := hps (s, g) (List.mem_cons_self (s, g) ps)
    show reSubParens (s ++ '(' :: (g ++ ')' :: assemble ps t)) = _
    rw [reSub_segment hs hg hn,
      ih t (fun q hq => hps q (List.mem_cons_of_mem (s, g) hq)) ht]
    simp [List.append_assoc]

/-- Extraction succeeds on a well-formed item and yields its stripped
title and description. -/
theorem extract_item_ok {it : FeedItem} {t d : String}
    (ht : it.title = some t) (hd : it.description = some d) :
    extract_item it = .ok (stripPair it) := by
  simp [extract_item, ht, hd, stripPair]

/-- On a feed whose items all carry title and description, the
collection loop returns the stripped pairs of all items, in order. -/
theorem collect_news_ok :
    ∀ {l : List FeedItem}, (∀ it ∈ l, it.title.isSome ∧ it.description.isSome) →
      collect_news l = .ok (l.map stripPair) := by
  intro l
  induction l with
  | nil => intro _; rfl
  | cons it l ih =>
    intro h
    obtain ⟨ht, hd⟩ := h it (List.mem_cons_self it l)
    obtain ⟨t, ht'⟩ := Option.isSome_iff_exists.mp ht
    obtain ⟨d, hd'⟩ := Option.isSome_iff_exists.mp hd
    have hl := ih (fun y hy => h y (List.mem_cons_of_mem it hy))
    simp only [collect_news, extract_item_ok ht' hd', hl, List.map_cons]
    rfl

/-- If some item in the list lacks its title or description, the
collection loop raises the structural error. -/
theorem collect_news_bad :
    ∀ {l : List FeedItem}, (∃ it ∈ l, it.title = none ∨ it.description = none) →
      collect_news l = .error .attribute := by
  intro l
  induction l with
  | nil => intro h; simp at h
  | cons it l ih =>
    intro h
    rcases hti : it.title with _ | t
    · simp only [collect_news, extract_item, hti]
      rfl
    · rcases htd : it.description with _ | d
      · simp only [collect_news, extract_item, hti, htd]
        rfl
      · have hbad : ∃ y ∈ l, y.title = none ∨ y.description = none := by
          rcases h with ⟨y, hy, hyb⟩
          rcases List.mem_cons.mp hy with rfl | hyl
          · rcases hyb with h1 | h1
            · rw [hti] at h1; cases h1
            · rw [htd] at h1; cases h1
          · exact ⟨y, hyl, hyb⟩
        simp only [collect_news, extract_item, hti, htd, ih hbad]
        rfl

/-- C1: `analyze_stock` returns a record with exactly the four fields
ticker, name, price, news, where the ticker is the input string
unchanged, the name and price are the extractors applied to the one
fetched page, and the news is the result of `get_latest_news` for the
same ticker and count; end-to-end on the AAPL fixtures the record is
(AAPL, Apple Inc., 195.27, the five feed items in order). -/
theorem analyze_stock_record (w : Web) (t : String) (n : Nat) (soup : Soup)
    (news : List (String × String))
    (hp : w.quotePage t = .ok soup) (hnews : get_latest_news w t n = .ok news) :
    analyze_stock w t n =
      .ok { ticker := t, nome := get_company_name soup
            preco_atual := get_current_price soup, noticias := news }
    ∧ analyze_stock aaplWeb "AAPL" 5 =
      .ok { ticker := "AAPL", nome := "Apple Inc.", preco_atual := some "195.27"
            noticias := aaplNewsPairs } := by
  constructor
  · simp only [analyze_stock, hp, hnews]
    rfl
  · rfl

/-- Witness for C1: the theorem applied to the AAPL fixture network. -/
theorem analyze_stock_record_witness :
    analyze_stock aaplWeb "AAPL" 5 =
      .ok { ticker := "AAPL", nome := get_company_name aaplSoup
            preco_atual := get_current_price aaplSoup, noticias := aaplNewsPairs } :=
  (analyze_stock_record aaplWeb "AAPL" 5 aaplSoup aaplNewsPairs rfl rfl).1

/-- C2: for every ticker and positive count `n`, on a success response
whose items all carry title and description, `get_latest_news` returns
exactly the first `min n (number of entries)` entries in feed order,
each title and summary stripped of surrounding whitespace, with no
padding and no error when fewer than `n` entries exist. -/
theorem get_latest_news_count_order_trim (w : Web) (t : String) (n : Nat)
    (r : FeedResponse) (hr : w.newsFeed t = .ok r) (hn : 0 < n)
    (hstatus : r.status < 400)
    (hwf : ∀ it ∈ r.items, it.title.isSome ∧ it.description.isSome) :
    get_latest_news w t n = .ok ((r.items.take n).map stripPair)
    ∧ ((r.items.take n).map stripPair).length = min n r.items.length := by
  have hcoll : collect_news (r.items.take n) = .ok ((r.items.take n).map stripPair) :=
    collect_news_ok (fun it hit => hwf it (List.mem_of_mem_take hit))
  have hrs : raise_for_status r = .ok () := by
    unfold raise_for_status
    rw [if_neg (by omega)]
  constructor
  · unfold get_latest_news
    rw [hr]
    show get_latest_news_from r n = _
    simp only [get_latest_news_from, hrs, hcoll]
    rfl
  · simp [List.length_take]

/-- Witness for C2: requesting three news items from the five-item
AAPL fixture feed. -/
theorem get_latest_news_count_order_trim_witness :
    get_latest_news aaplWeb "AAPL" 3 = .ok ((aaplItems.take 3).map stripPair)
    ∧ ((aaplItems.take 3).map stripPair).length = min 3 aaplItems.length :=
  get_latest_news_count_order_trim aaplWeb "AAPL" 3
    { status := 200, items := aaplItems } rfl (by decide) (by decide) (by decide)

/-- C3: when the news-feed response has an error status (400..599),
`get_latest_news` raises the HTTP error immediately; the outcome is
the same for every possible body, so the body is never parsed, and no
sentinel or partial result is returned. -/
theorem get_latest_news_http_error (w : Web) (t : String) (n : Nat)
    (r : FeedResponse) (hr : w.newsFeed t = .ok r)
    (h4 : 400 ≤ r.status) (h6 : r.status < 600) :
    get_latest_news w t n = .error (.httpStatus r.status)
    ∧ ∀ body : List FeedItem,
        get_latest_news_from { status := r.status, items := body } n =
          .error (.httpStatus r.status) := by
  have key : ∀ body : List FeedItem,
      get_latest_news_from { status := r.status, items := body } n =
        .error (.httpStatus r.status) := by
    intro body
    simp only [get_latest_news_from, raise_for_status]
    rw [if_pos ⟨h4, h6⟩]
    rfl
  constructor
  · simp only [get_latest_news, hr]
    exact key r.items
  · exact key

/-- Witness for C3: the fixture feed returning HTTP 500. -/
theorem get_latest_news_http_error_witness :
    get_latest_news web500 "AAPL" 5 = .error (.httpStatus 500)
    ∧ ∀ body : List FeedItem,
        get_latest_news_from { status := 500, items := body } 5 =
          .error (.httpStatus 500) :=
  get_latest_news_http_error web500 "AAPL" 5 feed500 rfl (by decide) (by decide)

/-- Counterexample for C4: the quote-page fetch and the news-feed
fetch do NOT send the same User-Agent value: `fetch_page` uses its
local header dict with value Mozilla/5.0 while `get_latest_news` uses
the module-level `HEADERS` value Mozilla/5.0 (Windows NT 10.0; Win64;
x64). -/
theorem user_agent_values_differ :
    userAgent (fetch_page_request "AAPL") ≠ userAgent (news_request "AAPL") := by
  decide

/-- C4 (amended): both fetches send a fixed browser-like User-Agent
header, but with different values: the quote-page fetch sends
Mozilla/5.0 and the news-feed fetch sends the module-level `HEADERS`
value Mozilla/5.0 (Windows NT 10.0; Win64; x64). -/
theorem user_agent_values (t1 t2 : String) :
    userAgent (fetch_page_request t1) = some "Mozilla/5.0"
    ∧ userAgent (news_request t2)
        = some "Mozilla/5.0 (Windows NT 10.0; Win64; x64)" :=
  ⟨rfl, rfl⟩

/-- C5: on every page whose name heading strips to the fixture text
Apple Inc. (AAPL), name extraction returns exactly Apple Inc.: the
parenthesized suffix is removed and whitespace trimmed. -/
theorem get_company_name_aapl (soup : Soup) (h : String)
    (hh : soup.h1_yf_xxbei9 = some h)
    (hstrip : pyStripStr h = "Apple Inc. (AAPL)") :
    get_company_name soup = "Apple Inc." := by
  unfold get_company_name
  rw [hh]
  show clean_company_name (pyStripStr h) = "Apple Inc."
  rw [hstrip]
  decide

/-- Witness for C5: a concrete page whose heading carries surrounding
whitespace around the fixture text. -/
theorem get_company_name_aapl_witness :
    get_company_name { h1_yf_xxbei9 := some " Apple Inc. (AAPL) "
                       qsp_price := some "195.27" } = "Apple Inc." :=
  get_company_name_aapl _ " Apple Inc. (AAPL) " rfl (by decide)

/-- C6: on every page lacking the name heading, name extraction
returns the fixed sentinel string (and, being a total function, cannot
raise). -/
theorem get_company_name_missing_sentinel (soup : Soup)
    (h : soup.h1_yf_xxbei9 = none) :
    get_company_name soup = "Nome não encontrado" := by
  unfold get_company_name
  rw [h]

/-- Witness for C6: a concrete page without the name heading. -/
theorem get_company_name_missing_sentinel_witness :
    get_company_name { h1_yf_xxbei9 := none, qsp_price := some "195.27" }
      = "Nome não encontrado" :=
  get_company_name_missing_sentinel _ rfl

/-- C7: on every page lacking the price element, price extraction
returns `none` (Python `None`), a non-string marker distinct from
`some` of the empty string and from `some` of the name sentinel; being
a total function it cannot raise. -/
theorem get_current_price_missing_none (soup : Soup)
    (h : soup.qsp_price = none) :
    get_current_price soup = none
    ∧ get_current_price soup ≠ some ""
    ∧ get_current_price soup ≠ some "Nome não encontrado" := by
  unfold get_current_price
  rw [h]
  refine ⟨rfl, ?_, ?_⟩ <;> intro hs <;> simp at hs

/-- Witness for C7: a concrete page without the price element. -/
theorem get_current_price_missing_none_witness :
    get_current_price { h1_yf_xxbei9 := some "Apple Inc. (AAPL)"
                        qsp_price := none } = none
    ∧ get_current_price { h1_yf_xxbei9 := some "Apple Inc. (AAPL)"
                          qsp_price := none } ≠ some ""
    ∧ get_current_price { h1_yf_xxbei9 := some "Apple Inc. (AAPL)"
                          qsp_price := none } ≠ some "Nome não encontrado" :=
  get_current_price_missing_none _ rfl

/-- C8: on a success response, if any entry among the first `n` lacks
its title or its description, `get_latest_news` raises the structural
(attribute) error: no default is substituted, no entry is skipped, and
no row list is returned. -/
theorem get_latest_news_malformed_raises (w : Web) (t : String) (n : Nat)
    (r : FeedResponse) (it : FeedItem) (hr : w.newsFeed t = .ok r)
    (hstatus : r.status < 400) (hmem : it ∈ r.items.take n)
    (hbad : it.title = none ∨ it.description = none) :
    get_latest_news w t n = .error .attribute := by
  have hrs : raise_for_status r = .ok () := by
    unfold raise_for_status
    rw [if_neg (by omega)]
  have hcoll := collect_news_bad ⟨it, hmem, hbad⟩
  unfold get_latest_news
  rw [hr]
  show get_latest_news_from r n = _
  simp only [get_latest_news_from, hrs, hcoll]
  rfl

/-- Witness for C8: a fixture feed whose single entry lacks its
description. -/
theorem get_latest_news_malformed_raises_witness :
    get_latest_news malformedWeb "AAPL" 5 = .error .attribute :=
  get_latest_news_malformed_raises malformedWeb "AAPL" 5
    { status := 200, items := malformedItems }
    { title := some "T", description := none }
    rfl (by decide) (by decide) (Or.inr rfl)

/-- C9: the batch loop visits the tickers strictly in list order, and
the first ticker whose snapshot fails aborts the whole batch with that
very exception: neither the snapshot list nor the price table is
produced. -/
theorem batch_fail_fast (w : Web) (n : Nat) (pre : List String) (t : String)
    (post : List String) (e : ScrapeError)
    (hpre : ∀ t2 ∈ pre, ∃ s, analyze_stock w t2 n = .ok s)
    (ht : analyze_stock w t n = .error e) :
    runBatch w (pre ++ t :: post) n = .error e
    ∧ df_prices w (pre ++ t :: post) n = .error e := by
  have hrun : ∀ pre2 : List String,
      (∀ t2 ∈ pre2, ∃ s, analyze_stock w t2 n = .ok s) →
      runBatch w (pre2 ++ t :: post) n = .error e := by
    intro pre2
    induction pre2 with
    | nil =>
      intro _
      show runBatch w (t :: post) n = .error e
      unfold runBatch
      rw [ht]
      rfl
    | cons p pre2 ih =>
      intro hp
      obtain ⟨s, hs⟩ := hp p (List.mem_cons_self p pre2)
      have h2 := ih (fun y hy => hp y (List.mem_cons_of_mem p hy))
      show runBatch w (p :: (pre2 ++ t :: post)) n = .error e
      unfold runBatch
      rw [hs, h2]
      rfl
  refine ⟨hrun pre hpre, ?_⟩
  unfold df_prices
  rw [hrun pre hpre]
  rfl

/-- Witness for C9: the two-ticker batch in which BADTICKER suffers a
transport failure. -/
theorem batch_fail_fast_witness :
    runBatch badWeb (["AAPL"] ++ "BADTICKER" :: []) 3 = .error .transport
    ∧ df_prices badWeb (["AAPL"] ++ "BADTICKER" :: []) 3 = .error .transport :=
  batch_fail_fast badWeb 3 ["AAPL"] "BADTICKER" [] .transport
    (by
      intro t2 ht2
      have ht2' : t2 = "AAPL" := by simpa using ht2
      subst ht2'
      exact ⟨_, rfl⟩)
    rfl

/-- Counterexample for C10: `clean_company_name` does not remove every
parenthesized substring of every input: a group containing a newline
survives unchanged (the lazy dot of the pattern cannot cross a
newline), and nested parentheses are mishandled, leaving a stray close
parenthesis. -/
theorem clean_company_name_not_all_groups :
    clean_company_name "A (B\nC)" = "A (B\nC)"
    ∧ clean_company_name "A (B\nC)" ≠ "A"
    ∧ clean_company_name "A ((B))" = "A)"
    ∧ clean_company_name "A ((B))" ≠ "A" := by
  decide

/-- C10 (amended): on every string assembled from parenthesis-free
segments and simple parenthesized groups (group content free of
parentheses and newlines), `clean_company_name` removes every group
wherever it occurs together with the whitespace immediately preceding
it, and then trims surrounding whitespace; in particular
Alpha (A) Beta (B) yields Alpha Beta. -/
theorem clean_company_name_simple_groups (ps : List (List Char × List Char))
    (t : List Char)
    (hseg : ∀ p ∈ ps, ∀ x ∈ p.1, x ≠ '(')
    (hgrp : ∀ p ∈ ps, (∀ x ∈ p.2, x ≠ ')') ∧ '\n' ∉ p.2)
    (ht : ∀ x ∈ t, x ≠ '(') :
    clean_company_name (assemble ps t).asString
      = (pyStrip ((ps.map fun p => pyRstrip p.1).flatten ++ t)).asString
    ∧ clean_company_name "Alpha (A) Beta (B)" = "Alpha Beta" := by
  constructor
  · unfold clean_company_name
    have hlist : (assemble ps t).asString.toList = assemble ps t := rfl
    rw [hlist,
      reSub_assemble ps t (fun p hp => ⟨hseg p hp, (hgrp p hp).1, (hgrp p hp).2⟩) ht]
  · decide

/-- Witness for C10: the assembled two-segment input
Alpha (A) Beta (B). -/
theorem clean_company_name_simple_groups_witness :
    clean_company_name
        (assemble [("Alpha ".toList, "A".toList), (" Beta ".toList, "B".toList)]
          []).asString
      = (pyStrip (([("Alpha ".toList, "A".toList), (" Beta ".toList, "B".toList)].map
          fun p => pyRstrip p.1).flatten ++ [])).asString
    ∧ clean_company_name "Alpha (A) Beta (B)" = "Alpha Beta" :=
  clean_company_name_simple_groups
    [("Alpha ".toList, "A".toList), (" Beta ".toList, "B".toList)] []
    (by decide) (by decide) (by decide)
